import Mathlib

/-!
Verification of the proximity-communication protocol layer of the
react-native-nfc-p2p repository: the message envelope codec
(src/app/models/message.ts), and the NFC operation coordinator
(src/app/services/nfcService.ts), shallowly embedded in Lean.

JavaScript values reaching the codec are modelled by an inductive JSON
value type; JS numbers are modelled as integers (the only numeric field,
a Date.now() timestamp, is a non-negative integer).  Stateful service
code is modelled by explicit state passing: each public operation is a
pure function from the service state and an environment (describing the
adapter's behaviour on this run) to a run record holding the settled
result (or a marker that the promise never settles), the final state,
and the ordered trace of adapter interactions.
-/

/-! ### Base-36 rendering, used by message id generation
(models Number.prototype.toString(36) on a non-negative integer). -/

/-- Digit character in base 36: 0-9 then a-z, as JavaScript toString(36). -/
def base36Digit (d : Nat) : Char :=
  if d < 10 then Char.ofNat (48 + d) else Char.ofNat (87 + d)

/-- Accumulator loop for base-36 rendering. -/
def natToBase36Aux (n : Nat) (acc : List Char) : List Char :=
  if h : n < 36 then base36Digit n :: acc
  else natToBase36Aux (n / 36) (base36Digit (n % 36) :: acc)
decreasing_by exact Nat.div_lt_self (by omega) (by omega)

/-- Models n.toString(36) for a non-negative JS integer. -/
def natToBase36 (n : Nat) : String :=
  String.mk (natToBase36Aux n [])

/-! ### The data model of src/app/models/message.ts and user.ts -/

/-- The MessageType enum of src/app/models/message.ts; its wire values are
the strings "PING", "PONG", "MARCO", "POLO", "INFO", "GREETING". -/
inductive MessageType where
  | PING
  | PONG
  | MARCO
  | POLO
  | INFO
  | GREETING
deriving DecidableEq, Repr

/-- The string value carried by each MessageType enum member. -/
def MessageType.toWire : MessageType → String
  | .PING => "PING"
  | .PONG => "PONG"
  | .MARCO => "MARCO"
  | .POLO => "POLO"
  | .INFO => "INFO"
  | .GREETING => "GREETING"

/-- The Message interface of src/app/models/message.ts.  timestamp is a
Date.now() value, a non-negative integer; responseToId is the optional
back-reference field. -/
structure Message where
  id : String
  senderId : String
  senderName : String
  type : MessageType
  content : String
  timestamp : Nat
  responseToId : Option String
deriving DecidableEq, Repr

/-- The User interface of src/app/models/user.ts (lastActive, a Date, is
modelled by its epoch-milliseconds value). -/
structure User where
  id : String
  name : String
  age : Nat
  email : String
  avatar : String
  lastActive : Nat
deriving DecidableEq, Repr

/-- Nondeterministic inputs consumed by one call to createMessage: the two
Date.now() readings (one for the id, one for the timestamp field) and the
random suffix Math.random().toString(36).substring(2, 7). -/
structure MsgGen where
  idNow : Nat
  rand : String
  tsNow : Nat
deriving DecidableEq, Repr

/-- JavaScript truthiness of the optional content argument: undefined and
the empty string are falsy; any other string is truthy.  Both the
expression (content or-else "") and the guard (not content) in
createMessage branch on exactly this. -/
def strOptFalsy : Option String → Bool
  | none => true
  | some s => s = ""

/-- createMessage of src/app/models/message.ts.  The id is
"msg_" ++ Date.now().toString(36) ++ "_" ++ random suffix; messageContent
starts as (content or-else "") and is replaced by the per-type default
whenever content is falsy (undefined or the empty string). -/
def createMessage (gen : MsgGen) (sender : User) (type : MessageType)
    (content : Option String) (responseToId : Option String) : Message :=
  let id := "msg_" ++ natToBase36 gen.idNow ++ "_" ++ gen.rand
  let messageContent :=
    if strOptFalsy content then
      match type with
      | .PING => "¡Ping!"
      | .PONG => "¡Pong!"
      | .MARCO => "¡Marco!"
      | .POLO => "¡Polo!"
      | .GREETING => "¡Hola! Soy " ++ sender.name
      | .INFO => "Información del usuario"
    else
      (content.getD "")
  { id := id
    senderId := sender.id
    senderName := sender.name
    type := type
    content := messageContent
    timestamp := gen.tsNow
    responseToId := responseToId }

/-- createResponseMessage of src/app/models/message.ts: picks the response
type via the switch on the original message type, then delegates to
createMessage with content undefined and responseToId set to the
original id. -/
def createResponseMessage (gen : MsgGen) (sender : User)
    (originalMessage : Message) : Message :=
  let responseType : MessageType :=
    match originalMessage.type with
    | .PING => .PONG
    | .PONG => .PING
    | .MARCO => .POLO
    | .POLO => .MARCO
    | .GREETING => .GREETING
    | _ => .INFO
  createMessage gen sender responseType none (some originalMessage.id)

/-- Modelled from the spec (section 4.1), for comparison with the code:
the response-type lookup table PING to PONG, PONG to PING, MARCO to POLO,
POLO to MARCO, GREETING to GREETING, everything else to INFO. -/
def specResponseType : MessageType → MessageType
  | .PING => .PONG
  | .PONG => .PING
  | .MARCO => .POLO
  | .POLO => .MARCO
  | .GREETING => .GREETING
  | .INFO => .INFO

/-! ### JSON values
JavaScript values flowing through JSON.parse and JSON.stringify are
modelled by the inductive type below.  JS numbers are modelled as
integers: the only number ever serialized by this repository is the
Date.now() timestamp, and the parser model accepts integer numerals
(fraction and exponent forms are outside the model). -/

/-- A JavaScript value as produced by JSON.parse. -/
inductive Json where
  | null
  | bool (b : Bool)
  | num (n : Int)
  | str (s : String)
  | arr (items : List Json)
  | obj (fields : List (String × Json))
deriving Repr

/-- Lowercase hexadecimal digit, as used by JSON.stringify escape output. -/
def hexDigitChar (d : Nat) : Char :=
  if d < 10 then Char.ofNat (48 + d) else Char.ofNat (87 + d)

/-- Decimal digit character. -/
def digitChar (d : Nat) : Char :=
  Char.ofNat (48 + d)

/-- Accumulator loop for decimal rendering of a non-negative integer. -/
def natCharsAux (n : Nat) (acc : List Char) : List Char :=
  if h : n < 10 then digitChar n :: acc
  else natCharsAux (n / 10) (digitChar (n % 10) :: acc)
decreasing_by exact Nat.div_lt_self (by omega) (by omega)

/-- Decimal rendering of a non-negative integer, most significant first. -/
def natChars (n : Nat) : List Char :=
  natCharsAux n []

/-- Decimal rendering of a JS integer, with a leading minus when negative. -/
def intChars (n : Int) : List Char :=
  if n < 0 then '-' :: natChars n.natAbs else natChars n.natAbs

/-- JSON.stringify escaping of one character inside a string literal:
quote and backslash get a backslash escape, the named control characters
get their short escapes, any other control character becomes a u-escape
with two lowercase hex digits, and everything else is emitted as is. -/
def escChar (c : Char) : List Char :=
  if c = '"' then ['\\', '"']
  else if c = '\\' then ['\\', '\\']
  else if c = Char.ofNat 8 then ['\\', 'b']
  else if c = Char.ofNat 9 then ['\\', 't']
  else if c = Char.ofNat 10 then ['\\', 'n']
  else if c = Char.ofNat 12 then ['\\', 'f']
  else if c = Char.ofNat 13 then ['\\', 'r']
  else if c.toNat < 32 then
    ['\\', 'u', '0', '0', hexDigitChar (c.toNat / 16), hexDigitChar (c.toNat % 16)]
  else [c]

/-- JSON.stringify escaping of a whole character sequence. -/
def escList : List Char → List Char
  | [] => []
  | c :: cs => escChar c ++ escList cs

/-- A JSON string literal: opening quote, escaped body, closing quote. -/
def strLit (s : String) : List Char :=
  '"' :: (escList s.data ++ ['"'])

mutual

/-- JSON.stringify rendering of a value (no whitespace, keys in insertion
order), as a character list. -/
def jsonToChars : Json → List Char
  | .null => "null".data
  | .bool true => "true".data
  | .bool false => "false".data
  | .num n => intChars n
  | .str s => strLit s
  | .arr items => '[' :: (itemsChars items ++ [']'])
  | .obj fields => '{' :: (fieldsChars fields ++ ['}'])

/-- Comma-separated rendering of array items. -/
def itemsChars : List Json → List Char
  | [] => []
  | [v] => jsonToChars v
  | v :: vs => jsonToChars v ++ ',' :: itemsChars vs

/-- Comma-separated rendering of object members. -/
def fieldsChars : List (String × Json) → List Char
  | [] => []
  | [(k, v)] => strLit k ++ ':' :: jsonToChars v
  | (k, v) :: fs => strLit k ++ ':' :: (jsonToChars v ++ ',' :: fieldsChars fs)

end

/-- JSON.stringify rendering of a value, as a string. -/
def jsonToString (j : Json) : String :=
  String.mk (jsonToChars j)

/-! ### A JSON.parse model: recursive descent with a fuel bound -/

/-- JSON insignificant whitespace. -/
def jsonWs (c : Char) : Bool :=
  c = ' ' || c = Char.ofNat 9 || c = Char.ofNat 10 || c = Char.ofNat 13

/-- Drop leading JSON whitespace. -/
def skipJsonWs : List Char → List Char
  | [] => []
  | c :: cs => if jsonWs c then skipJsonWs cs else c :: cs

/-- Value of one hexadecimal digit, either case. -/
def hexNibble (c : Char) : Option Nat :=
  if c.isDigit then some (c.toNat - 48)
  else if 'a' ≤ c && c ≤ 'f' then some (c.toNat - 87)
  else if 'A' ≤ c && c ≤ 'F' then some (c.toNat - 55)
  else none

/-- The single-character JSON string escapes. -/
def unescChar : Char → Option Char
  | '"' => some '"'
  | '\\' => some '\\'
  | '/' => some '/'
  | 'b' => some (Char.ofNat 8)
  | 'f' => some (Char.ofNat 12)
  | 'n' => some (Char.ofNat 10)
  | 'r' => some (Char.ofNat 13)
  | 't' => some (Char.ofNat 9)
  | _ => none

/-- Body of a JSON string literal, after the opening quote: characters up
to the closing quote, undoing escapes; raw control characters and bad
escapes are rejected, as JSON.parse rejects them. -/
def parseStrBody : List Char → Option (List Char × List Char)
  | [] => none
  | c :: cs =>
    if c = '"' then some ([], cs)
    else if c = '\\' then
      match cs with
      | 'u' :: h1 :: h2 :: h3 :: h4 :: cs2 =>
        (match hexNibble h1, hexNibble h2, hexNibble h3, hexNibble h4 with
         | some a, some b, some x, some y =>
           (parseStrBody cs2).map
             (fun r => (Char.ofNat (((a * 16 + b) * 16 + x) * 16 + y) :: r.1, r.2))
         | _, _, _, _ => none)
      | e :: cs2 =>
        (match unescChar e with
         | some ch => (parseStrBody cs2).map (fun r => (ch :: r.1, r.2))
         | none => none)
      | [] => none
    else if c.toNat < 32 then none
    else (parseStrBody cs).map (fun r => (c :: r.1, r.2))

/-- Longest digit prefix and the remaining input. -/
def takeDigits : List Char → List Char × List Char
  | [] => ([], [])
  | c :: cs =>
    if c.isDigit then
      let p := takeDigits cs
      (c :: p.1, p.2)
    else ([], c :: cs)

/-- Value of a digit sequence, most significant first. -/
def digitsToNat (ds : List Char) : Nat :=
  ds.foldl (fun a c => a * 10 + (c.toNat - 48)) 0

/-- An unsigned JSON integer numeral: at least one digit, and no redundant
leading zero. -/
def parseNatNum (cs : List Char) : Option (Nat × List Char) :=
  match takeDigits cs with
  | ([], _) => none
  | (d :: ds, r) =>
    if d = '0' && !ds.isEmpty then none
    else some (digitsToNat (d :: ds), r)

/-- A JSON integer numeral with optional leading minus. -/
def parseJsonNumber (cs : List Char) : Option (Json × List Char) :=
  match cs with
  | '-' :: r => (parseNatNum r).map (fun p => (Json.num (-(p.1 : Int)), p.2))
  | _ => (parseNatNum cs).map (fun p => (Json.num (p.1 : Int), p.2))

mutual

/-- One JSON value, by first significant character; fuel bounds the
recursion and exceeds any input's need at fuel = length + 1. -/
def parseVal : Nat → List Char → Option (Json × List Char)
  | 0, _ => none
  | fuel + 1, cs =>
    match skipJsonWs cs with
    | '{' :: r =>
      (match skipJsonWs r with
       | '}' :: r2 => some (.obj [], r2)
       | r2 =>
         match parseFields fuel r2 with
         | some p => some (.obj p.1, p.2)
         | none => none)
    | '[' :: r =>
      (match skipJsonWs r with
       | ']' :: r2 => some (.arr [], r2)
       | r2 =>
         match parseItems fuel r2 with
         | some p => some (.arr p.1, p.2)
         | none => none)
    | '"' :: r =>
      (match parseStrBody r with
       | some p => some (.str (String.mk p.1), p.2)
       | none => none)
    | 'n' :: 'u' :: 'l' :: 'l' :: r => some (.null, r)
    | 't' :: 'r' :: 'u' :: 'e' :: r => some (.bool true, r)
    | 'f' :: 'a' :: 'l' :: 's' :: 'e' :: r => some (.bool false, r)
    | c :: r => if c = '-' || c.isDigit then parseJsonNumber (c :: r) else none
    | [] => none

/-- One or more comma-separated members of a non-empty object, up to and
including the closing brace. -/
def parseFields : Nat → List Char → Option (List (String × Json) × List Char)
  | 0, _ => none
  | fuel + 1, cs =>
    match skipJsonWs cs with
    | '"' :: r =>
      (match parseStrBody r with
       | none => none
       | some kp =>
         match skipJsonWs kp.2 with
         | ':' :: r2 =>
           (match parseVal fuel r2 with
            | none => none
            | some vp =>
              match skipJsonWs vp.2 with
              | ',' :: r3 =>
                (match parseFields fuel r3 with
                 | some fp => some ((String.mk kp.1, vp.1) :: fp.1, fp.2)
                 | none => none)
              | '}' :: r3 => some ([(String.mk kp.1, vp.1)], r3)
              | _ => none)
         | _ => none)
    | _ => none

/-- One or more comma-separated items of a non-empty array, up to and
including the closing bracket. -/
def parseItems : Nat → List Char → Option (List Json × List Char)
  | 0, _ => none
  | fuel + 1, cs =>
    match parseVal fuel cs with
    | none => none
    | some vp =>
      match skipJsonWs vp.2 with
      | ',' :: r2 =>
        (match parseItems fuel r2 with
         | some ip => some (vp.1 :: ip.1, ip.2)
         | none => none)
      | ']' :: r2 => some ([vp.1], r2)
      | _ => none

end

/-- JSON.parse model: parse one value and require only whitespace after
it; any failure yields none (JSON.parse would throw there). -/
def jsonParse (text : String) : Option Json :=
  match parseVal (text.data.length + 1) text.data with
  | some p => if skipJsonWs p.2 = [] then some p.1 else none
  | none => none

/-- Property lookup on a parsed JS object (first binding wins, as
JSON.parse keeps the last duplicate; serialized messages have no
duplicate keys, where the two coincide). -/
def Json.getField (j : Json) (key : String) : Option Json :=
  match j with
  | .obj fields => (fields.find? (fun f => f.1 == key)).map (fun f => f.2)
  | _ => none

/-- The JS object literal built by createMessage, as serialized: keys in
insertion order; a responseToId of undefined is omitted by
JSON.stringify. -/
def messageToJson (m : Message) : Json :=
  .obj ([("id", .str m.id), ("senderId", .str m.senderId),
         ("senderName", .str m.senderName), ("type", .str m.type.toWire),
         ("content", .str m.content), ("timestamp", .num (m.timestamp : Int))] ++
        (match m.responseToId with
         | some r => [("responseToId", Json.str r)]
         | none => []))

/-- serializeMessage of src/app/models/message.ts: JSON.stringify of the
message object. -/
def serializeMessage (message : Message) : String :=
  jsonToString (messageToJson message)

/-- deserializeMessage of src/app/models/message.ts: JSON.parse inside a
try/catch returning null on any parse error.  The cast (as Message) is
unchecked in the source, so the raw parsed value is returned whether or
not it conforms to the Message envelope. -/
def deserializeMessage (jsonString : String) : Option Json :=
  jsonParse jsonString

/-! ### The operation coordinator of src/app/services/nfcService.ts
Each public operation is modelled as a pure function of the current
service state and an environment describing how the adapter behaves on
this run.  The result is an OpRun: the settled promise outcome (none when
no continuation ever settles the promise), the service state at that
point, and the ordered trace of adapter interactions and settlement.
Timer arming is a trace event; a step whose environment outcome is hangs
never settles, so the armed timer (when one exists on that path) fires
and its handler runs. -/

/-- The two platforms distinguished by Platform.OS in the source. -/
inductive NfcPlatform where
  | ios
  | android
deriving DecidableEq, Repr

/-- The NfcTech values named by the source (NdefFormatable is used by tag
read and write but has no TECH_SUPPORT entry). -/
inductive NfcTech where
  | Ndef
  | NfcA
  | IsoDep
  | NfcB
  | NfcF
  | NfcV
  | MifareClassic
  | MifareUltralight
  | MifareIOS
  | Iso15693IOS
  | FelicaIOS
  | NdefFormatable
deriving DecidableEq, Repr

/-- The TECH_SUPPORT table of nfcService.ts: per technology, the pair
(android support, ios support); none for a technology absent from the
table. -/
def TECH_SUPPORT : NfcTech → Option (Bool × Bool)
  | .Ndef => some (true, true)
  | .NfcA => some (true, true)
  | .IsoDep => some (true, true)
  | .NfcB => some (true, false)
  | .NfcF => some (true, false)
  | .NfcV => some (true, false)
  | .MifareClassic => some (true, false)
  | .MifareUltralight => some (true, false)
  | .MifareIOS => some (false, true)
  | .Iso15693IOS => some (false, true)
  | .FelicaIOS => some (false, true)
  | .NdefFormatable => none

/-- isTechSupported of nfcService.ts: table lookup for the current
platform; a technology missing from the table is unsupported. -/
def isTechSupported (p : NfcPlatform) (tech : NfcTech) : Bool :=
  match TECH_SUPPORT tech with
  | some support =>
    (match p with
     | .android => support.1
     | .ios => support.2)
  | none => false

/-- The mutable fields of the NFCService singleton that the claims are
about; currentOperation records whether the operation-handle promise is
set (the messageCallback field is not modelled: no claim mentions it). -/
structure ServiceState where
  isInitialized : Bool
  isReading : Bool
  isWriting : Bool
  currentOperation : Bool
deriving DecidableEq, Repr

/-- The state right after successful initialization, with no operation in
flight. -/
def readyState : ServiceState :=
  { isInitialized := true, isReading := false, isWriting := false,
    currentOperation := false }

/-- ensureNoActiveOperation of nfcService.ts, as the condition under which
it throws: an operation promise is recorded, or a reading or writing flag
is up. -/
def ensureNoActiveOperation (s : ServiceState) : Bool :=
  s.currentOperation || (s.isReading || s.isWriting)

/-- The errors thrown or rejected by nfcService.ts, one constructor per
distinct throw site message. -/
inductive NfcError where
  | notInitialized
  | operationInProgress
  | readTimeout
  | writeTimeout
  | tagReadTimeout
  | tagWriteTimeout
  | techTestTimeout
  | readFailed
  | adapter
  | handlerError
  | iosCannotSend
  | iosTagWriteUnsupported
  | techNotSupported (tech : NfcTech) (p : NfcPlatform)
  | unknownTech (tech : NfcTech)
  | techNotImplementedIOS (tech : NfcTech)
  | encodeFailed
deriving DecidableEq, Repr

/-- Observable interactions of one operation run, in order: adapter calls,
timer arming, and the delivery of the settlement. -/
inductive Event where
  | armTimeout (ms : Nat)
  | requestTechnology (techs : List NfcTech)
  | getTag
  | registerTagEvent
  | setEventListener
  | setAlertMessage
  | setNdefPushMessage
  | writeNdefMessage
  | cancelOperation
  | resolved
  | rejected (e : NfcError)
deriving DecidableEq, Repr

/-- The outcome of one public-operation run: the settled value (none when
the promise never settles), the service state at settlement (or at the
point the run stalls), and the event trace. -/
structure OpRun (α : Type) where
  outcome : Option (Except NfcError α)
  state : ServiceState
  trace : List Event

/-- The read timeout ceiling of readNFC (line 149: one minute). -/
def READ_TIMEOUT_MS : Nat := 60000

/-- The write timeout ceiling of the iOS writeNFC path. -/
def WRITE_TIMEOUT_MS : Nat := 60000

/-- The timeout ceiling of readNFCTag, writeToNFCTag and
testNfcTechnology. -/
def TAG_TIMEOUT_MS : Nat := 60000

/-- How one adapter step behaves on this run: resolves, rejects, or never
settles. -/
inductive StepOutcome where
  | ok
  | fails
  | hangs
deriving DecidableEq, Repr

/-- How one requestTechnology-then-getTag attempt inside the Android
readNFC fallback behaves: the request never settles, the request
rejects, the tag carries no usable NDEF record (absent tag, or an empty
ndefMessage), or a text payload is decoded. -/
inductive TechOutcome where
  | hangs
  | requestFails
  | noNdef
  | payload (text : String)
deriving DecidableEq, Repr

/-- tryReadWithTech of readNFC (Android): first component is none when the
attempt never settles, some none when it failed and the fallback may
continue, some (some text) on success; second component is the adapter
calls the attempt makes.  A failed attempt releases its session
(cancelOperation) before returning false. -/
def tryReadWithTech (tech : NfcTech) : TechOutcome → Option (Option String) × List Event
  | .hangs => (none, [.requestTechnology [tech]])
  | .requestFails => (some none, [.requestTechnology [tech], .cancelOperation])
  | .noNdef => (some none, [.requestTechnology [tech], .getTag, .cancelOperation])
  | .payload text => (some (some text), [.requestTechnology [tech], .getTag, .cancelOperation])

/-- Environment of one readNFC run: the iOS registerTagEvent outcome, the
iOS discovery (some decoded text if the DiscoverTag callback ever fires),
and the per-technology behaviour of the Android fallback attempts. -/
structure ReadEnv where
  iosRegister : StepOutcome
  iosDiscovered : Option String
  tech : NfcTech → TechOutcome

/-- readNFC of nfcService.ts.  Entry: reject when not initialized, then
ensureNoActiveOperation, then set isReading and record the operation
promise.  The executor arms the 60 s timer; iOS registers a tag event
session and waits for the discovery callback; Android tries Ndef then
NfcA via tryReadWithTech and rejects when both fail.  Every settling path
first clears isReading and the operation handle and triggers session
cancellation before delivering the settlement (for an iOS register
failure the code rejects without a cancel call). -/
def readNFC (p : NfcPlatform) (s : ServiceState) (env : ReadEnv) : OpRun String :=
  if s.isInitialized = false then
    ⟨some (.error .notInitialized), s, []⟩
  else if ensureNoActiveOperation s then
    ⟨some (.error .operationInProgress), s, []⟩
  else
    let s1 : ServiceState := { s with isReading := true, currentOperation := true }
    let done : ServiceState := { s1 with isReading := false, currentOperation := false }
    match p with
    | .ios =>
      (match env.iosRegister with
       | .fails =>
         ⟨some (.error .adapter), done,
          [.armTimeout READ_TIMEOUT_MS, .registerTagEvent, .rejected .adapter]⟩
       | .hangs =>
         ⟨some (.error .readTimeout), done,
          [.armTimeout READ_TIMEOUT_MS, .registerTagEvent, .cancelOperation,
           .rejected .readTimeout]⟩
       | .ok =>
         match env.iosDiscovered with
         | some text =>
           ⟨some (.ok text), done,
            [.armTimeout READ_TIMEOUT_MS, .registerTagEvent, .cancelOperation, .resolved]⟩
         | none =>
           ⟨some (.error .readTimeout), done,
            [.armTimeout READ_TIMEOUT_MS, .registerTagEvent, .cancelOperation,
             .rejected .readTimeout]⟩)
    | .android =>
      let base : List Event := [.armTimeout READ_TIMEOUT_MS]
      let a1 := tryReadWithTech .Ndef (env.tech .Ndef)
      match a1.1 with
      | none =>
        ⟨some (.error .readTimeout), done,
         base ++ a1.2 ++ [.cancelOperation, .rejected .readTimeout]⟩
      | some (some text) =>
        ⟨some (.ok text), done, base ++ a1.2 ++ [.resolved]⟩
      | some none =>
        let a2 := tryReadWithTech .NfcA (env.tech .NfcA)
        match a2.1 with
        | none =>
          ⟨some (.error .readTimeout), done,
           base ++ a1.2 ++ a2.2 ++ [.cancelOperation, .rejected .readTimeout]⟩
        | some (some text) =>
          ⟨some (.ok text), done, base ++ a1.2 ++ a2.2 ++ [.resolved]⟩
        | some none =>
          ⟨some (.error .readFailed), done,
           base ++ a1.2 ++ a2.2 ++ [.cancelOperation, .rejected .readFailed]⟩

/-- Environment of one writeNFC run: outcomes of the iOS steps (cancel of
a previous session, registerTagEvent, setNdefPushMessage) and of the
Android steps (NfcA request, Ndef request, Ndef.encodeMessage truthiness,
Android Beam push). -/
structure WriteEnv where
  iosCancelPrev : StepOutcome
  iosRegister : StepOutcome
  iosPush : StepOutcome
  nfcAReq : StepOutcome
  ndefReq : StepOutcome
  encodeOk : Bool
  beamPush : StepOutcome

/-- writeNFC of nfcService.ts.  Entry as for readNFC but setting
isWriting.  iOS: arm the 60 s timer, set the alert message, cancel any
previous session, register a tag session, push the NDEF message, and
resolve when the 10 s sharing window elapses; every failure resets the
flags.  Android: request NfcA (tag emulation) and resolve when the
emulation window elapses; on NfcA request failure fall back to a Ndef
session with an Android Beam push.  The Android path arms no timer, so a
hanging adapter step leaves the promise pending forever. -/
def writeNFC (p : NfcPlatform) (s : ServiceState) (message : Message)
    (env : WriteEnv) : OpRun Unit :=
  if s.isInitialized = false then
    ⟨some (.error .notInitialized), s, []⟩
  else if ensureNoActiveOperation s then
    ⟨some (.error .operationInProgress), s, []⟩
  else
    let s1 : ServiceState := { s with isWriting := true, currentOperation := true }
    let done : ServiceState := { s1 with isWriting := false, currentOperation := false }
    match p with
    | .ios =>
      let base : List Event :=
        [.armTimeout WRITE_TIMEOUT_MS, .setAlertMessage, .cancelOperation]
      (match env.iosCancelPrev with
       | .fails => ⟨some (.error .adapter), done, base ++ [.rejected .adapter]⟩
       | .hangs =>
         ⟨some (.error .writeTimeout), done,
          base ++ [.cancelOperation, .rejected .writeTimeout]⟩
       | .ok =>
         match env.iosRegister with
         | .fails =>
           ⟨some (.error .adapter), done,
            base ++ [.registerTagEvent, .cancelOperation, .rejected .adapter]⟩
         | .hangs =>
           ⟨some (.error .writeTimeout), done,
            base ++ [.registerTagEvent, .cancelOperation, .rejected .writeTimeout]⟩
         | .ok =>
           match env.iosPush with
           | .fails =>
             ⟨some (.error .adapter), done,
              base ++ [.registerTagEvent, .setNdefPushMessage, .cancelOperation,
                       .rejected .adapter]⟩
           | .hangs =>
             ⟨some (.error .writeTimeout), done,
              base ++ [.registerTagEvent, .setNdefPushMessage, .cancelOperation,
                       .rejected .writeTimeout]⟩
           | .ok =>
             ⟨some (.ok ()), done,
              base ++ [.registerTagEvent, .setNdefPushMessage, .cancelOperation,
                       .resolved]⟩)
    | .android =>
      let base : List Event := [.requestTechnology [.NfcA]]
      match env.nfcAReq with
      | .hangs => ⟨none, s1, base⟩
      | .ok => ⟨some (.ok ()), done, base ++ [.cancelOperation, .resolved]⟩
      | .fails =>
        let t1 := base ++ [.requestTechnology [.Ndef]]
        match env.ndefReq with
        | .hangs => ⟨none, s1, t1⟩
        | .fails =>
          ⟨some (.error .adapter), done, t1 ++ [.cancelOperation, .rejected .adapter]⟩
        | .ok =>
          if env.encodeOk then
            match env.beamPush with
            | .hangs => ⟨none, s1, t1 ++ [.setNdefPushMessage]⟩
            | .fails =>
              ⟨some (.error .adapter), done,
               t1 ++ [.setNdefPushMessage, .cancelOperation, .rejected .adapter]⟩
            | .ok =>
              ⟨some (.ok ()), done,
               t1 ++ [.setNdefPushMessage, .cancelOperation, .resolved]⟩
          else
            ⟨some (.error .encodeFailed), done,
             t1 ++ [.cancelOperation, .rejected .encodeFailed]⟩

/-- sendP2PMessage of nfcService.ts: iOS throws the capability error
synchronously, before any state change, session request, or timer;
Android delegates to writeNFC. -/
def sendP2PMessage (p : NfcPlatform) (s : ServiceState) (message : Message)
    (env : WriteEnv) : OpRun Unit :=
  match p with
  | .ios => ⟨some (.error .iosCannotSend), s, []⟩
  | .android => writeNFC .android s message env

/-- Result payload of a tag read: the decoded text payload when one NDEF
record decodes, and its parsed form (JSON.parse of the raw text when that
succeeds, otherwise the raw string itself, per the fallback in the
source). -/
structure TagData where
  rawPayload : Option String
  parsedPayload : Option Json

/-- Build the TagData the source resolves with, from the optional decoded
text payload. -/
def mkTagData (raw : Option String) : TagData :=
  { rawPayload := raw
    parsedPayload := raw.map (fun r => (jsonParse r).getD (Json.str r)) }

/-- Behaviour of an iOS DiscoverTag handler invocation: the handler body
runs to completion with an optional decoded payload, or throws. -/
inductive DiscOutcome where
  | handlerOk (raw : Option String)
  | handlerThrows
deriving DecidableEq, Repr

/-- Behaviour of the Android getTag step and subsequent processing: never
settles, throws, or produces a tag with an optional decodable payload. -/
inductive TagFetch where
  | hangs
  | throws
  | found (raw : Option String)
deriving DecidableEq, Repr

/-- Environment of one readNFCTag or testNfcTechnology run: iOS
registerTagEvent outcome and discovery behaviour (none when DiscoverTag
never fires), Android requestTechnology outcome and getTag behaviour. -/
structure TagOpEnv where
  register : StepOutcome
  disc : Option DiscOutcome
  req : StepOutcome
  fetch : TagFetch

/-- readNFCTag of nfcService.ts.  Entry as readNFC.  The 60 s timer is
armed; iOS registers a session, installs the DiscoverTag listener and
settles from the handler; Android requests a joined Ndef and
NdefFormatable session and reads the tag.  Every settling path resets
isReading and the handle; all but the iOS register-failure path also
trigger session cancellation before settling. -/
def readNFCTag (p : NfcPlatform) (s : ServiceState) (env : TagOpEnv) : OpRun TagData :=
  if s.isInitialized = false then
    ⟨some (.error .notInitialized), s, []⟩
  else if ensureNoActiveOperation s then
    ⟨some (.error .operationInProgress), s, []⟩
  else
    let s1 : ServiceState := { s with isReading := true, currentOperation := true }
    let done : ServiceState := { s1 with isReading := false, currentOperation := false }
    match p with
    | .ios =>
      (match env.register with
       | .fails =>
         ⟨some (.error .adapter), done,
          [.armTimeout TAG_TIMEOUT_MS, .registerTagEvent, .rejected .adapter]⟩
       | .hangs =>
         ⟨some (.error .tagReadTimeout), done,
          [.armTimeout TAG_TIMEOUT_MS, .registerTagEvent, .cancelOperation,
           .rejected .tagReadTimeout]⟩
       | .ok =>
         match env.disc with
         | none =>
           ⟨some (.error .tagReadTimeout), done,
            [.armTimeout TAG_TIMEOUT_MS, .registerTagEvent, .setEventListener,
             .cancelOperation, .rejected .tagReadTimeout]⟩
         | some (.handlerOk raw) =>
           ⟨some (.ok (mkTagData raw)), done,
            [.armTimeout TAG_TIMEOUT_MS, .registerTagEvent, .setEventListener,
             .cancelOperation, .resolved]⟩
         | some .handlerThrows =>
           ⟨some (.error .handlerError), done,
            [.armTimeout TAG_TIMEOUT_MS, .registerTagEvent, .setEventListener,
             .cancelOperation, .rejected .handlerError]⟩)
    | .android =>
      let base : List Event :=
        [.armTimeout TAG_TIMEOUT_MS, .requestTechnology [.Ndef, .NdefFormatable]]
      match env.req with
      | .fails =>
        ⟨some (.error .adapter), done, base ++ [.cancelOperation, .rejected .adapter]⟩
      | .hangs =>
        ⟨some (.error .tagReadTimeout), done,
         base ++ [.cancelOperation, .rejected .tagReadTimeout]⟩
      | .ok =>
        match env.fetch with
        | .hangs =>
          ⟨some (.error .tagReadTimeout), done,
           base ++ [.getTag, .cancelOperation, .rejected .tagReadTimeout]⟩
        | .throws =>
          ⟨some (.error .handlerError), done,
           base ++ [.getTag, .cancelOperation, .rejected .handlerError]⟩
        | .found raw =>
          ⟨some (.ok (mkTagData raw)), done,
           base ++ [.getTag, .cancelOperation, .resolved]⟩

/-- Environment of one writeToNFCTag run: requestTechnology outcome,
Ndef.encodeMessage truthiness, and the writeNdefMessage outcome. -/
structure TagWriteEnv where
  req : StepOutcome
  encodeOk : Bool
  write : StepOutcome

/-- writeToNFCTag of nfcService.ts.  After the initialization check, iOS
is rejected with the capability error before the active-operation check,
any state change, timer, or session request.  On Android: set isWriting,
arm the 60 s timer, request a joined Ndef and NdefFormatable session,
encode and write the NDEF message; every settling path resets the flags
and triggers cancellation before settling. -/
def writeToNFCTag (p : NfcPlatform) (s : ServiceState) (data : String)
    (env : TagWriteEnv) : OpRun Unit :=
  if s.isInitialized = false then
    ⟨some (.error .notInitialized), s, []⟩
  else if p = .ios then
    ⟨some (.error .iosTagWriteUnsupported), s, []⟩
  else if ensureNoActiveOperation s then
    ⟨some (.error .operationInProgress), s, []⟩
  else
    let s1 : ServiceState := { s with isWriting := true, currentOperation := true }
    let done : ServiceState := { s1 with isWriting := false, currentOperation := false }
    let base : List Event :=
      [.armTimeout TAG_TIMEOUT_MS, .requestTechnology [.Ndef, .NdefFormatable]]
    match env.req with
    | .fails =>
      ⟨some (.error .adapter), done, base ++ [.cancelOperation, .rejected .adapter]⟩
    | .hangs =>
      ⟨some (.error .tagWriteTimeout), done,
       base ++ [.cancelOperation, .rejected .tagWriteTimeout]⟩
    | .ok =>
      if env.encodeOk then
        match env.write with
        | .ok =>
          ⟨some (.ok ()), done,
           base ++ [.writeNdefMessage, .cancelOperation, .resolved]⟩
        | .fails =>
          ⟨some (.error .adapter), done,
           base ++ [.writeNdefMessage, .cancelOperation, .rejected .adapter]⟩
        | .hangs =>
          ⟨some (.error .tagWriteTimeout), done,
           base ++ [.writeNdefMessage, .cancelOperation, .rejected .tagWriteTimeout]⟩
      else
        ⟨some (.error .encodeFailed), done,
         base ++ [.cancelOperation, .rejected .encodeFailed]⟩

/-- The three iOS-only technologies given special handling by
testNfcTechnology. -/
def iosSpecificTech (tech : NfcTech) : Bool :=
  tech = .MifareIOS || tech = .Iso15693IOS || tech = .FelicaIOS

/-- The standard technologies handled by testNfcTechnology on iOS. -/
def iosStandardTech (tech : NfcTech) : Bool :=
  tech = .Ndef || tech = .NfcA || tech = .IsoDep

/-- testNfcTechnology of nfcService.ts.  After the initialization check:
a technology missing from TECH_SUPPORT is rejected as unknown, one
unsupported on the current platform is rejected with the capability
error, both before the active-operation check and any session attempt.
Then isReading is set and the 60 s timer armed.  iOS handles its three
specific and the three standard technologies through a registered
discovery session, rejecting other technologies as not implemented
(dead code given the support check); Android requests the technology and
reads a tag.  Every settling path resets the flags. -/
def testNfcTechnology (p : NfcPlatform) (s : ServiceState) (tech : NfcTech)
    (env : TagOpEnv) : OpRun TagData :=
  if s.isInitialized = false then
    ⟨some (.error .notInitialized), s, []⟩
  else
    match TECH_SUPPORT tech with
    | none => ⟨some (.error (.unknownTech tech)), s, []⟩
    | some support =>
      if (match p with | .android => support.1 | .ios => support.2) = false then
        ⟨some (.error (.techNotSupported tech p)), s, []⟩
      else if ensureNoActiveOperation s then
        ⟨some (.error .operationInProgress), s, []⟩
      else
        let s1 : ServiceState := { s with isReading := true, currentOperation := true }
        let done : ServiceState := { s1 with isReading := false, currentOperation := false }
        match p with
        | .ios =>
          if iosSpecificTech tech || iosStandardTech tech then
            match env.register with
            | .fails =>
              ⟨some (.error .adapter), done,
               [.armTimeout TAG_TIMEOUT_MS, .registerTagEvent, .rejected .adapter]⟩
            | .hangs =>
              ⟨some (.error .techTestTimeout), done,
               [.armTimeout TAG_TIMEOUT_MS, .registerTagEvent, .cancelOperation,
                .rejected .techTestTimeout]⟩
            | .ok =>
              (match env.disc with
               | none =>
                 ⟨some (.error .techTestTimeout), done,
                  [.armTimeout TAG_TIMEOUT_MS, .registerTagEvent, .setEventListener,
                   .cancelOperation, .rejected .techTestTimeout]⟩
               | some (.handlerOk raw) =>
                 ⟨some (.ok (mkTagData raw)), done,
                  [.armTimeout TAG_TIMEOUT_MS, .registerTagEvent, .setEventListener,
                   .cancelOperation, .resolved]⟩
               | some .handlerThrows =>
                 ⟨some (.error .handlerError), done,
                  [.armTimeout TAG_TIMEOUT_MS, .registerTagEvent, .setEventListener,
                   .cancelOperation, .rejected .handlerError]⟩)
          else
            ⟨some (.error (.techNotImplementedIOS tech)), done,
             [.armTimeout TAG_TIMEOUT_MS, .rejected (.techNotImplementedIOS tech)]⟩
        | .android =>
          let base : List Event :=
            [.armTimeout TAG_TIMEOUT_MS, .requestTechnology [tech]]
          match env.req with
          | .fails =>
            ⟨some (.error .adapter), done,
             base ++ [.cancelOperation, .rejected .adapter]⟩
          | .hangs =>
            ⟨some (.error .techTestTimeout), done,
             base ++ [.cancelOperation, .rejected .techTestTimeout]⟩
          | .ok =>
            match env.fetch with
            | .hangs =>
              ⟨some (.error .techTestTimeout), done,
               base ++ [.getTag, .cancelOperation, .rejected .techTestTimeout]⟩
            | .throws =>
              ⟨some (.error .handlerError), done,
               base ++ [.getTag, .cancelOperation, .rejected .handlerError]⟩
            | .found raw =>
              ⟨some (.ok (mkTagData raw)), done,
               base ++ [.getTag, .cancelOperation, .resolved]⟩

/-- The flags a terminating operation must leave cleared. -/
def released (s : ServiceState) : Bool :=
  !s.isReading && !s.isWriting && !s.currentOperation

/-- A run is released on settlement when either its promise never settles,
or at the point of settlement every busy flag is down, the operation
handle is cleared, and the entry check of a subsequent operation
passes. -/
def OpRun.releasedOnSettle {α : Type} (r : OpRun α) : Bool :=
  match r.outcome with
  | none => true
  | some _ => released r.state && !(ensureNoActiveOperation r.state)

/-- True when the input does not continue with a decimal digit (used to
delimit a parsed numeral). -/
def noDigitHead : List Char → Bool
  | [] => true
  | c :: _ => !c.isDigit

/-- A busy service state: initialized, with a read in flight. -/
def busyStateEx : ServiceState :=
  { isInitialized := true, isReading := true, isWriting := false,
    currentOperation := true }

/-- A concrete message fixture. -/
def msgEx : Message :=
  { id := "m1", senderId := "u1", senderName := "Ana", type := .PING,
    content := "hi", timestamp := 0, responseToId := none }

/-- A read environment in which discovery never resolves on either
platform. -/
def hangingReadEnv : ReadEnv :=
  { iosRegister := .ok, iosDiscovered := none, tech := fun _ => .hangs }

/-- A read environment whose Ndef attempt finds no NDEF message and whose
NfcA attempt decodes a payload. -/
def fallbackReadEnvEx : ReadEnv :=
  { iosRegister := .ok, iosDiscovered := none
    tech := fun t => match t with | .Ndef => .noNdef | _ => .payload "peer" }

/-- A write environment fixture in which every adapter step succeeds. -/
def writeEnvEx : WriteEnv :=
  { iosCancelPrev := .ok, iosRegister := .ok, iosPush := .ok,
    nfcAReq := .ok, ndefReq := .ok, encodeOk := true, beamPush := .ok }

/-- A tag-operation environment fixture in which every step succeeds. -/
def tagEnvEx : TagOpEnv :=
  { register := .ok, disc := some (.handlerOk none), req := .ok,
    fetch := .found none }

/-- A tag-write environment fixture in which every step succeeds. -/
def tagWriteEnvEx : TagWriteEnv :=
  { req := .ok, encodeOk := true, write := .ok }

/-- C8.  Response construction: for every sender and original message,
createResponseMessage returns a message whose type follows the
spec lookup table (PING to PONG, PONG to PING, MARCO to POLO, POLO to
MARCO, GREETING to GREETING, INFO to INFO) and whose responseToId is the
original message id. -/
theorem c8_response_construction (gen : MsgGen) (sender : User) (m : Message) :
    (createResponseMessage gen sender m).type = specResponseType m.type ∧
    (createResponseMessage gen sender m).responseToId = some m.id := by
  cases h : m.type <;>
    simp [createResponseMessage, createMessage, specResponseType, h]

/-- C10.  createMessage treats an empty-string content argument exactly
like an absent one, and the resulting content (the per-type default) is
never the empty string. -/
theorem c10_empty_content_defaults (gen : MsgGen) (sender : User)
    (type : MessageType) (r : Option String) :
    createMessage gen sender type (some "") r =
      createMessage gen sender type none r ∧
    (createMessage gen sender type (some "") r).content ≠ "" := by
  refine ⟨by simp [createMessage, strOptFalsy], ?_⟩
  cases type <;> simp only [createMessage, strOptFalsy] <;> try decide
  intro h
  have h2 : ("¡Hola! Soy " ++ sender.name).data = "".data :=
    congrArg String.data h
  rw [String.data_append] at h2
  exact absurd (List.append_eq_nil.mp h2).1 (by decide)

/-- C9 counterexample: supplying the empty string as content does not
store it unchanged; the per-type default is stored instead, so the claim
that every supplied content string is stored exactly is false. -/
theorem c9_counterexample :
    (createMessage ⟨0, "abcde", 0⟩ ⟨"u1", "Ana", 30, "e", "a", 0⟩ .PING
      (some "") none).content = "¡Ping!" ∧
    ("¡Ping!" : String) ≠ "" := by
  exact ⟨rfl, by decide⟩

/-- C9 as amended: the per-type default is applied when content is absent
or empty; any supplied non-empty content string is stored unchanged. -/
theorem c9_content_defaulting (gen : MsgGen) (sender : User)
    (type : MessageType) (c : String) (r : Option String) (hc : c ≠ "") :
    (createMessage gen sender type (some c) r).content = c ∧
    createMessage gen sender type (some "") r =
      createMessage gen sender type none r := by
  constructor
  · simp [createMessage, strOptFalsy, hc]
  · simp [createMessage, strOptFalsy]

/-- Witness for c9_content_defaulting at content "hola". -/
theorem c9_content_defaulting_witness :
    (createMessage ⟨0, "r", 0⟩ ⟨"u", "n", 0, "e", "a", 0⟩ .PING
      (some "hola") none).content = "hola" ∧
    createMessage ⟨0, "r", 0⟩ ⟨"u", "n", 0, "e", "a", 0⟩ .PING
      (some "") none =
      createMessage ⟨0, "r", 0⟩ ⟨"u", "n", 0, "e", "a", 0⟩ .PING none none :=
  c9_content_defaulting ⟨0, "r", 0⟩ ⟨"u", "n", 0, "e", "a", 0⟩ .PING "hola"
    none (by decide)

/-- C7.  Capability gating: from any initialized state, on iOS both
sendP2PMessage and writeToNFCTag reject with their capability errors with
an empty trace (no session request, no discovery wait, no timer armed)
and unchanged state. -/
theorem c7_capability_gating (s : ServiceState) (m : Message) (d : String)
    (we : WriteEnv) (twe : TagWriteEnv) (hi : s.isInitialized = true) :
    (sendP2PMessage .ios s m we).outcome = some (.error .iosCannotSend) ∧
    (sendP2PMessage .ios s m we).trace = [] ∧
    (sendP2PMessage .ios s m we).state = s ∧
    (writeToNFCTag .ios s d twe).outcome =
      some (.error .iosTagWriteUnsupported) ∧
    (writeToNFCTag .ios s d twe).trace = [] ∧
    (writeToNFCTag .ios s d twe).state = s := by
  refine ⟨rfl, rfl, rfl, ?_, ?_, ?_⟩ <;> simp [writeToNFCTag, hi]

/-- Witness for c7_capability_gating at the ready state. -/
theorem c7_capability_gating_witness :
    (sendP2PMessage .ios readyState msgEx writeEnvEx).outcome =
      some (.error .iosCannotSend) ∧
    (writeToNFCTag .ios readyState "data" tagWriteEnvEx).outcome =
      some (.error .iosTagWriteUnsupported) :=
  ⟨(c7_capability_gating readyState msgEx "data" writeEnvEx tagWriteEnvEx
      rfl).1,
   (c7_capability_gating readyState msgEx "data" writeEnvEx tagWriteEnvEx
      rfl).2.2.2.1⟩

/-- C5.  Timeout: the read ceiling is 60000 ms; a read whose discovery
never resolves (iOS: the DiscoverTag callback never fires; Android: the
technology request never settles) rejects with the read-timeout error,
the timeout handler triggers session cancellation before the rejection is
delivered (cancelOperation precedes the rejected event in the trace), and
the final state is idle. -/
theorem c5_read_timeout :
    READ_TIMEOUT_MS = 60000 ∧
    (readNFC .ios readyState hangingReadEnv).outcome =
      some (.error .readTimeout) ∧
    (readNFC .ios readyState hangingReadEnv).trace =
      [.armTimeout 60000, .registerTagEvent, .cancelOperation,
       .rejected .readTimeout] ∧
    released (readNFC .ios readyState hangingReadEnv).state = true ∧
    (readNFC .android readyState hangingReadEnv).outcome =
      some (.error .readTimeout) ∧
    (readNFC .android readyState hangingReadEnv).trace =
      [.armTimeout 60000, .requestTechnology [.Ndef], .cancelOperation,
       .rejected .readTimeout] ∧
    released (readNFC .android readyState hangingReadEnv).state = true := by
  refine ⟨rfl, rfl, rfl, rfl, rfl, rfl, rfl⟩

/-- C6.  Fallback iteration of the Android read: with a failing Ndef
attempt, a successful NfcA attempt resolves the operation with the NfcA
payload, both attempts failing rejects the operation, and the trace shows
Ndef tried first, its session released (cancelOperation), then NfcA. -/
theorem c6_fallback_iteration (env : ReadEnv) (text : String)
    (h1 : env.tech .Ndef = .requestFails ∨ env.tech .Ndef = .noNdef) :
    (env.tech .NfcA = .payload text →
      (readNFC .android readyState env).outcome = some (.ok text)) ∧
    ((env.tech .NfcA = .requestFails ∨ env.tech .NfcA = .noNdef) →
      (readNFC .android readyState env).outcome =
        some (.error .readFailed)) ∧
    (env.tech .Ndef = .noNdef → env.tech .NfcA = .payload text →
      (readNFC .android readyState env).trace =
        [.armTimeout 60000, .requestTechnology [.Ndef], .getTag,
         .cancelOperation, .requestTechnology [.NfcA], .getTag,
         .cancelOperation, .resolved]) := by
  refine ⟨?_, ?_, ?_⟩
  · intro h2
    rcases h1 with h1 | h1 <;>
      simp [readNFC, readyState, ensureNoActiveOperation, tryReadWithTech,
        h1, h2]
  · intro h2
    rcases h1 with h1 | h1 <;> rcases h2 with h2 | h2 <;>
      simp [readNFC, readyState, ensureNoActiveOperation, tryReadWithTech,
        h1, h2]
  · intro h1b h2
    simp [readNFC, readyState, ensureNoActiveOperation, tryReadWithTech,
      h1b, h2, READ_TIMEOUT_MS]

/-- Witness for c6_fallback_iteration on a concrete environment failing
Ndef and succeeding on NfcA. -/
theorem c6_fallback_iteration_witness :
    (readNFC .android readyState fallbackReadEnvEx).outcome =
      some (.ok "peer") :=
  (c6_fallback_iteration fallbackReadEnvEx "peer" (Or.inr rfl)).1 rfl

/-- Helper: every settling path of readNFC from the ready state leaves the
flags cleared. -/
theorem readNFC_released (p : NfcPlatform) (re : ReadEnv) :
    (readNFC p readyState re).releasedOnSettle = true := by
  cases p
  · cases hr : re.iosRegister <;> cases hd : re.iosDiscovered <;>
      simp [readNFC, readyState, ensureNoActiveOperation, hr, hd,
        OpRun.releasedOnSettle, released]
  · cases h1 : re.tech .Ndef <;> cases h2 : re.tech .NfcA <;>
      simp [readNFC, readyState, ensureNoActiveOperation, tryReadWithTech,
        h1, h2, OpRun.releasedOnSettle, released]

/-- Helper: every settling path of writeNFC from the ready state leaves
the flags cleared. -/
theorem writeNFC_released (p : NfcPlatform) (m : Message) (we : WriteEnv) :
    (writeNFC p readyState m we).releasedOnSettle = true := by
  cases p
  · cases h1 : we.iosCancelPrev <;> cases h2 : we.iosRegister <;>
      cases h3 : we.iosPush <;>
      simp [writeNFC, readyState, ensureNoActiveOperation, h1, h2, h3,
        OpRun.releasedOnSettle, released]
  · cases h1 : we.nfcAReq <;> cases h2 : we.ndefReq <;>
      cases h3 : we.encodeOk <;> cases h4 : we.beamPush <;>
      simp [writeNFC, readyState, ensureNoActiveOperation, h1, h2, h3, h4,
        OpRun.releasedOnSettle, released]

/-- Helper: every settling path of readNFCTag from the ready state leaves
the flags cleared. -/
theorem readNFCTag_released (p : NfcPlatform) (te : TagOpEnv) :
    (readNFCTag p readyState te).releasedOnSettle = true := by
  cases p
  · cases h1 : te.register <;> cases h2 : te.disc <;>
      first
        | (rename_i o; cases o <;>
            simp [readNFCTag, readyState, ensureNoActiveOperation, h1, h2,
              OpRun.releasedOnSettle, released])
        | simp [readNFCTag, readyState, ensureNoActiveOperation, h1, h2,
            OpRun.releasedOnSettle, released]
  · cases h1 : te.req <;> cases h2 : te.fetch <;>
      simp [readNFCTag, readyState, ensureNoActiveOperation, h1, h2,
        OpRun.releasedOnSettle, released]

/-- Helper: every settling path of writeToNFCTag from the ready state
leaves the flags cleared. -/
theorem writeToNFCTag_released (p : NfcPlatform) (d : String)
    (twe : TagWriteEnv) :
    (writeToNFCTag p readyState d twe).releasedOnSettle = true := by
  cases p
  · simp [writeToNFCTag, readyState, OpRun.releasedOnSettle, released,
      ensureNoActiveOperation]
  · cases h1 : twe.req <;> cases h2 : twe.encodeOk <;> cases h3 : twe.write <;>
      simp [writeToNFCTag, readyState, ensureNoActiveOperation, h1, h2, h3,
        OpRun.releasedOnSettle, released]

/-- Helper: every settling path of testNfcTechnology from the ready state
leaves the flags cleared. -/
theorem testNfcTechnology_released (p : NfcPlatform) (t : NfcTech)
    (te : TagOpEnv) :
    (testNfcTechnology p readyState t te).releasedOnSettle = true := by
  cases htc : TECH_SUPPORT t with
  | none =>
    simp [testNfcTechnology, readyState, htc, OpRun.releasedOnSettle,
      released, ensureNoActiveOperation]
  | some support =>
    cases p <;> cases hsa : support.1 <;> cases hsi : support.2 <;>
      by_cases hit : (iosSpecificTech t || iosStandardTech t) = true <;>
      cases h1 : te.register <;> cases h3 : te.req <;>
      cases h4 : te.fetch <;> cases h2 : te.disc <;>
      first
        | (rename_i o; cases o <;>
            simp [testNfcTechnology, readyState, ensureNoActiveOperation,
              htc, hsa, hsi, hit, h1, h2, h3, h4,
              OpRun.releasedOnSettle, released])
        | simp [testNfcTechnology, readyState, ensureNoActiveOperation,
            htc, hsa, hsi, hit, h1, h2, h3, h4,
            OpRun.releasedOnSettle, released]

/-- C2.  Guaranteed release: for each of the six public operations, every
run from the ready state that settles (resolution, adapter failure,
timeout, or session-cancellation fallout) leaves isReading and isWriting
false and the operation handle cleared, so the entry check of an
immediately subsequent operation passes.  Runs that never settle (the
Android writeNFC path arms no timer, so a hanging adapter step stalls the
promise) are not terminating paths. -/
theorem c2_guaranteed_release (p : NfcPlatform) (m : Message) (d : String)
    (t : NfcTech) (re : ReadEnv) (we : WriteEnv) (te : TagOpEnv)
    (twe : TagWriteEnv) :
    (readNFC p readyState re).releasedOnSettle = true ∧
    (writeNFC p readyState m we).releasedOnSettle = true ∧
    (sendP2PMessage p readyState m we).releasedOnSettle = true ∧
    (readNFCTag p readyState te).releasedOnSettle = true ∧
    (writeToNFCTag p readyState d twe).releasedOnSettle = true ∧
    (testNfcTechnology p readyState t te).releasedOnSettle = true := by
  refine ⟨readNFC_released p re, writeNFC_released p m we, ?_,
    readNFCTag_released p te, writeToNFCTag_released p d twe,
    testNfcTechnology_released p t te⟩
  cases p
  · simp [sendP2PMessage, OpRun.releasedOnSettle, released, readyState,
      ensureNoActiveOperation]
  · exact writeNFC_released .android m we

/-- C1 counterexample: with an operation already in flight, writeToNFCTag
on iOS rejects with the capability error, not the operation-in-progress
error, so the claim that every busy call rejects with the
operation-in-progress error is false. -/
theorem c1_counterexample :
    busyStateEx.isInitialized = true ∧ busyStateEx.isReading = true ∧
    (writeToNFCTag .ios busyStateEx "x" tagWriteEnvEx).outcome =
      some (.error .iosTagWriteUnsupported) ∧
    NfcError.iosTagWriteUnsupported ≠ NfcError.operationInProgress := by
  exact ⟨rfl, rfl, rfl, by decide⟩

/-- C1 as amended: from an initialized state with an operation in flight,
every public operation rejects synchronously with an empty trace (no
session request, no timer) and unchanged state; the error is the
operation-in-progress error whenever the operation's earlier synchronous
checks pass — always for readNFC, writeNFC and readNFCTag, on Android for
sendP2PMessage and writeToNFCTag (iOS rejects these with capability
errors first), and for testNfcTechnology whenever the technology is
supported on the platform. -/
theorem c1_busy_rejection (s : ServiceState) (hi : s.isInitialized = true)
    (hb : ensureNoActiveOperation s = true) (p : NfcPlatform) (m : Message)
    (d : String) (t : NfcTech) (re : ReadEnv) (we : WriteEnv)
    (te : TagOpEnv) (twe : TagWriteEnv) :
    ((readNFC p s re).outcome = some (.error .operationInProgress) ∧
     (readNFC p s re).trace = [] ∧ (readNFC p s re).state = s) ∧
    ((writeNFC p s m we).outcome = some (.error .operationInProgress) ∧
     (writeNFC p s m we).trace = [] ∧ (writeNFC p s m we).state = s) ∧
    ((readNFCTag p s te).outcome = some (.error .operationInProgress) ∧
     (readNFCTag p s te).trace = [] ∧ (readNFCTag p s te).state = s) ∧
    ((sendP2PMessage .android s m we).outcome =
       some (.error .operationInProgress) ∧
     (sendP2PMessage .android s m we).trace = [] ∧
     (sendP2PMessage .android s m we).state = s) ∧
    ((sendP2PMessage .ios s m we).outcome = some (.error .iosCannotSend) ∧
     (sendP2PMessage .ios s m we).trace = [] ∧
     (sendP2PMessage .ios s m we).state = s) ∧
    ((writeToNFCTag .android s d twe).outcome =
       some (.error .operationInProgress) ∧
     (writeToNFCTag .android s d twe).trace = [] ∧
     (writeToNFCTag .android s d twe).state = s) ∧
    ((writeToNFCTag .ios s d twe).outcome =
       some (.error .iosTagWriteUnsupported) ∧
     (writeToNFCTag .ios s d twe).trace = [] ∧
     (writeToNFCTag .ios s d twe).state = s) ∧
    ((testNfcTechnology p s t te).trace = [] ∧
     (testNfcTechnology p s t te).state = s) ∧
    (isTechSupported p t = true →
      (testNfcTechnology p s t te).outcome =
        some (.error .operationInProgress)) := by
  refine ⟨?_, ?_, ?_, ?_, ?_, ?_, ?_, ?_, ?_⟩
  · cases p <;> simp [readNFC, hi, hb]
  · cases p <;> simp [writeNFC, hi, hb]
  · cases p <;> simp [readNFCTag, hi, hb]
  · simp [sendP2PMessage, writeNFC, hi, hb]
  · simp [sendP2PMessage]
  · simp [writeToNFCTag, hi, hb]
  · simp [writeToNFCTag, hi]
  · cases htc : TECH_SUPPORT t with
    | none => simp [testNfcTechnology, hi, hb, htc]
    | some support =>
      cases p <;> cases hsa : support.1 <;> cases hsi : support.2 <;>
        simp [testNfcTechnology, hi, hb, htc, hsa, hsi]
  · intro hsup
    cases htc : TECH_SUPPORT t with
    | none => simp [isTechSupported, htc] at hsup
    | some support =>
      simp only [isTechSupported, htc] at hsup
      cases p <;> simp at hsup <;> simp [testNfcTechnology, hi, hb, htc, hsup]

/-- Witness for c1_busy_rejection at a busy state. -/
theorem c1_busy_rejection_witness :
    (readNFC .android busyStateEx hangingReadEnv).outcome =
      some (.error .operationInProgress) :=
  (c1_busy_rejection busyStateEx rfl rfl .android msgEx "d" .Ndef
    hangingReadEnv writeEnvEx tagEnvEx tagWriteEnvEx).1.1


/-- Helper: skipJsonWs is the identity on input with a non-whitespace
head. -/
theorem skipJsonWs_cons (c : Char) (t : List Char) (h : jsonWs c = false) :
    skipJsonWs (c :: t) = c :: t := by
  simp [skipJsonWs, h]

/-- Helper: hexNibble inverts hexDigitChar on nibble values. -/
theorem hexNibble_hexDigitChar : ∀ d, d < 16 →
    hexNibble (hexDigitChar d) = some d := by decide

/-- Helper: decimal digit characters are digits, have the expected code
point, and are distinct from every character the parser dispatches on. -/
theorem digitChar_facts : ∀ d, d < 10 →
    (digitChar d).isDigit = true ∧ (digitChar d).toNat = 48 + d ∧
    jsonWs (digitChar d) = false ∧ digitChar d ≠ '{' ∧ digitChar d ≠ '[' ∧
    digitChar d ≠ '"' ∧ digitChar d ≠ 'n' ∧ digitChar d ≠ 't' ∧
    digitChar d ≠ 'f' ∧ digitChar d ≠ '-' := by decide

/-- Helper: a nonzero decimal digit is not the zero character. -/
theorem digitChar_ne_zero : ∀ d, d < 10 → d ≠ 0 → digitChar d ≠ '0' := by
  decide

/-- Helper: parsing one stringify-escaped character undoes the escape. -/
theorem parseStrBody_escChar (c : Char) (rest : List Char) :
    parseStrBody (escChar c ++ rest) =
      (parseStrBody rest).map (fun r => (c :: r.1, r.2)) := by
  by_cases h1 : c = '"'
  · subst h1; rw [escChar, if_pos rfl, List.cons_append, List.cons_append,
      List.nil_append, parseStrBody.eq_def]
    simp [unescChar]
  by_cases h2 : c = '\\'
  · subst h2; rw [escChar]; rw [if_neg (by decide), if_pos rfl,
      List.cons_append, List.cons_append, List.nil_append,
      parseStrBody.eq_def]
    simp [unescChar]
  by_cases h3 : c = Char.ofNat 8
  · subst h3; rw [escChar]
    rw [if_neg (by decide), if_neg (by decide), if_pos rfl,
      List.cons_append, List.cons_append, List.nil_append,
      parseStrBody.eq_def]
    simp [unescChar]
  by_cases h4 : c = Char.ofNat 9
  · subst h4; rw [escChar]
    rw [if_neg (by decide), if_neg (by decide), if_neg (by decide),
      if_pos rfl, List.cons_append, List.cons_append, List.nil_append,
      parseStrBody.eq_def]
    simp [unescChar]
  by_cases h5 : c = Char.ofNat 10
  · subst h5; rw [escChar]
    rw [if_neg (by decide), if_neg (by decide), if_neg (by decide),
      if_neg (by decide), if_pos rfl, List.cons_append, List.cons_append,
      List.nil_append, parseStrBody.eq_def]
    simp [unescChar]
  by_cases h6 : c = Char.ofNat 12
  · subst h6; rw [escChar]
    rw [if_neg (by decide), if_neg (by decide), if_neg (by decide),
      if_neg (by decide), if_neg (by decide), if_pos rfl,
      List.cons_append, List.cons_append, List.nil_append,
      parseStrBody.eq_def]
    simp [unescChar]
  by_cases h7 : c = Char.ofNat 13
  · subst h7; rw [escChar]
    rw [if_neg (by decide), if_neg (by decide), if_neg (by decide),
      if_neg (by decide), if_neg (by decide), if_neg (by decide),
      if_pos rfl, List.cons_append, List.cons_append, List.nil_append,
      parseStrBody.eq_def]
    simp [unescChar]
  by_cases h8 : c.toNat < 32
  · have e0 : hexNibble '0' = some 0 := rfl
    have e1 := hexNibble_hexDigitChar (c.toNat / 16) (by omega)
    have e2 := hexNibble_hexDigitChar (c.toNat % 16) (by omega)
    have harith : c.toNat / 16 * 16 + c.toNat % 16 = c.toNat := by omega
    rw [escChar]
    rw [if_neg h1, if_neg h2, if_neg h3, if_neg h4, if_neg h5, if_neg h6,
      if_neg h7, if_pos h8, List.cons_append, List.cons_append,
      List.cons_append, List.cons_append, List.cons_append,
      List.cons_append, List.nil_append, parseStrBody.eq_def]
    simp only [e0, e1, e2]
    simp [harith, Char.ofNat_toNat]
  · rw [escChar]
    rw [if_neg h1, if_neg h2, if_neg h3, if_neg h4, if_neg h5, if_neg h6,
      if_neg h7, if_neg h8, List.cons_append, List.nil_append,
      parseStrBody.eq_def]
    simp [h1, h2, h8]

/-- Helper: parsing an escaped character run recovers it and stops at the
closing quote. -/
theorem parseStrBody_escList (cs : List Char) : ∀ rest : List Char,
    parseStrBody (escList cs ++ '"' :: rest) = some (cs, rest) := by
  induction cs with
  | nil =>
    intro rest
    rw [escList, List.nil_append, parseStrBody.eq_def]
    simp
  | cons c cs ih =>
    intro rest
    rw [escList, List.append_assoc, parseStrBody_escChar, ih]
    rfl

/-- Helper: the parser's string branch inverts a rendered string literal,
for any fuel budget and any continuation. -/
theorem parseVal_strLit (f : Nat) (s : String) (rest : List Char) :
    parseVal (f + 1) (strLit s ++ rest) = some (.str s, rest) := by
  have hsk : strLit s ++ rest =
      '"' :: (escList s.data ++ '"' :: rest) := by
    simp [strLit]
  rw [hsk]
  simp only [parseVal]
  rw [skipJsonWs_cons _ _ (by decide)]
  simp [parseStrBody_escList]

/-- Helper: the decimal rendering accumulator appends to the bare
rendering. -/
theorem natCharsAux_acc (n : Nat) : ∀ acc : List Char,
    natCharsAux n acc = natCharsAux n [] ++ acc := by
  induction n using Nat.strong_induction_on with
  | _ n ih =>
    intro acc
    by_cases h : n < 10
    · rw [natCharsAux.eq_def]
      conv_rhs => rw [natCharsAux.eq_def]
      simp [h]
    · have hd : n / 10 < n := Nat.div_lt_self (by omega) (by omega)
      rw [natCharsAux.eq_def]
      conv_rhs => rw [natCharsAux.eq_def]
      simp only [dif_neg h]
      rw [ih _ hd,
        show natCharsAux (n / 10) [digitChar (n % 10)] =
          natCharsAux (n / 10) [] ++ [digitChar (n % 10)] from ih _ hd _,
        List.append_assoc]
      simp

/-- Helper: the decimal rendering of a multi-digit number splits into the
rendering of the quotient followed by the last digit. -/
theorem natChars_split (n : Nat) (h : ¬ n < 10) :
    natChars n = natChars (n / 10) ++ [digitChar (n % 10)] := by
  rw [natChars, natCharsAux.eq_def]
  simp only [dif_neg h]
  rw [natCharsAux_acc]
  rfl

/-- Helper: a decimal rendering starts with a digit character, which is
the zero digit only for the rendering of zero itself. -/
theorem natChars_shape (n : Nat) : ∃ d ds,
    natChars n = digitChar d :: ds ∧ d < 10 ∧ (d = 0 → n = 0 ∧ ds = []) := by
  induction n using Nat.strong_induction_on with
  | _ n ih =>
    by_cases h : n < 10
    · refine ⟨n, [], ?_, h, fun h0 => ⟨h0, rfl⟩⟩
      rw [natChars, natCharsAux.eq_def]
      simp [h]
    · have hd : n / 10 < n := Nat.div_lt_self (by omega) (by omega)
      obtain ⟨d, ds, hds, hd10, hz⟩ := ih _ hd
      refine ⟨d, ds ++ [digitChar (n % 10)], ?_, hd10, fun h0 => ?_⟩
      · rw [natChars_split n h, hds]
        rfl
      · exact absurd (hz h0).1 (by omega)

/-- Helper: every character of a decimal rendering is a digit. -/
theorem natChars_digits (n : Nat) : ∀ c ∈ natChars n, c.isDigit = true := by
  induction n using Nat.strong_induction_on with
  | _ n ih =>
    by_cases h : n < 10
    · rw [natChars, natCharsAux.eq_def]
      simp only [dif_pos h]
      intro c hc
      simp at hc
      subst hc
      exact (digitChar_facts n h).1
    · have hd : n / 10 < n := Nat.div_lt_self (by omega) (by omega)
      rw [natChars_split n h]
      intro c hc
      rcases List.mem_append.mp hc with hc | hc
      · exact ih _ hd c hc
      · simp at hc
        subst hc
        exact (digitChar_facts _ (by omega)).1

/-- Helper: takeDigits consumes exactly a digit run delimited by a
non-digit. -/
theorem takeDigits_exact (ds : List Char) : ∀ rest : List Char,
    (∀ c ∈ ds, c.isDigit = true) → noDigitHead rest = true →
    takeDigits (ds ++ rest) = (ds, rest) := by
  induction ds with
  | nil =>
    intro rest _ hrest
    cases rest with
    | nil => rfl
    | cons c t =>
      simp [noDigitHead] at hrest
      simp [takeDigits, hrest]
  | cons c ds ih =>
    intro rest hds hrest
    have hc := hds c (by simp)
    rw [List.cons_append]
    simp [takeDigits, hc, ih rest (fun x hx => hds x (by simp [hx])) hrest]

/-- Helper: the digit fold inverts the decimal rendering. -/
theorem digitsToNat_natChars (n : Nat) : digitsToNat (natChars n) = n := by
  induction n using Nat.strong_induction_on with
  | _ n ih =>
    by_cases h : n < 10
    · rw [natChars, natCharsAux.eq_def]
      simp only [dif_pos h]
      have ht := (digitChar_facts n h).2.1
      simp [digitsToNat, ht]
    · have hd : n / 10 < n := Nat.div_lt_self (by omega) (by omega)
      rw [natChars_split n h, digitsToNat, List.foldl_append]
      have hfold : List.foldl (fun a c => a * 10 + (c.toNat - 48))
          0 (natChars (n / 10)) = n / 10 := ih _ hd
      have ht := (digitChar_facts (n % 10) (by omega)).2.1
      simp [hfold, ht]
      omega

/-- Helper: parsing an unsigned numeral inverts the decimal rendering of
any non-negative integer, stopping at a non-digit delimiter. -/
theorem parseNatNum_natChars (n : Nat) (rest : List Char)
    (hrest : noDigitHead rest = true) :
    parseNatNum (natChars n ++ rest) = some (n, rest) := by
  obtain ⟨d, ds, hds, hd10, hz⟩ := natChars_shape n
  have htd := takeDigits_exact (natChars n) rest (natChars_digits n) hrest
  rw [parseNatNum, htd, hds]
  by_cases hd0 : d = 0
  · obtain ⟨hn0, hds0⟩ := hz hd0
    subst hds0
    simp only [List.isEmpty_nil, Bool.not_true, Bool.and_false,
      Bool.false_eq_true, if_false]
    rw [show digitChar d :: ([] : List Char) = natChars n from hds.symm,
      digitsToNat_natChars]
  · have hne := digitChar_ne_zero d hd10 hd0
    show (if (decide (digitChar d = '0') && !ds.isEmpty) = true then none
      else some (digitsToNat (digitChar d :: ds), rest)) = some (n, rest)
    rw [if_neg (by simp [hne])]
    rw [show digitChar d :: ds = natChars n from hds.symm,
      digitsToNat_natChars]


/-- Helper: the signed-numeral parser inverts the decimal rendering of a
non-negative integer, stopping at a non-digit delimiter. -/
theorem parseJsonNumber_natChars (n : Nat) (rest : List Char)
    (hrest : noDigitHead rest = true) :
    parseJsonNumber (natChars n ++ rest) = some (.num (n : Int), rest) := by
  obtain ⟨d, ds, hds, hd10, _⟩ := natChars_shape n
  have hb7 := (digitChar_facts d hd10).2.2.2.2.2.2.2.2.2
  have hr : parseNatNum (natChars n ++ rest) = some (n, rest) :=
    parseNatNum_natChars n rest hrest
  rw [parseJsonNumber.eq_def,
    show natChars n ++ rest = digitChar d :: (ds ++ rest) from by
      rw [hds, List.cons_append]]
  split
  · rename_i r heq
    exact absurd (List.cons.inj heq).1 hb7
  · rw [show (digitChar d :: (ds ++ rest) : List Char) = natChars n ++ rest
        from by rw [hds, List.cons_append], hr]
    rfl

/-- Helper: on input starting with a sign or digit, the value parser
dispatches to the numeral parser. -/
theorem parseVal_numHead (f : Nat) (c : Char) (t : List Char)
    (hws : jsonWs c = false) (h1 : c ≠ '{') (h2 : c ≠ '[') (h3 : c ≠ '"')
    (h4 : c ≠ 'n') (h5 : c ≠ 't') (h6 : c ≠ 'f')
    (hd : (c = '-' || c.isDigit) = true) :
    parseVal (f + 1) (c :: t) = parseJsonNumber (c :: t) := by
  simp only [parseVal]
  rw [skipJsonWs_cons _ _ hws]
  simp [h1, h2, h3, h4, h5, h6, hd]

/-- Helper: the value parser inverts the decimal rendering of a
non-negative integer, for any fuel budget. -/
theorem parseVal_natChars (f n : Nat) (rest : List Char)
    (hrest : noDigitHead rest = true) :
    parseVal (f + 1) (natChars n ++ rest) = some (.num (n : Int), rest) := by
  obtain ⟨d, ds, hds, hd10, _⟩ := natChars_shape n
  obtain ⟨hdig, _, hws, hb1, hb2, hb3, hb4, hb5, hb6, _⟩ :=
    digitChar_facts d hd10
  rw [hds, List.cons_append,
    parseVal_numHead f _ _ hws hb1 hb2 hb3 hb4 hb5 hb6 (by simp [hdig]),
    ← List.cons_append, ← hds]
  exact parseJsonNumber_natChars n rest hrest

/-- Helper: the member parser consumes one rendered string-valued member
followed by a comma and recurses on the remaining members. -/
theorem parseFields_strField_comma (f : Nat) (key s : String)
    (rest : List Char) :
    parseFields (f + 1 + 1) (strLit key ++ ':' :: (strLit s ++ ',' :: rest)) =
      (parseFields (f + 1) rest).map
        (fun p => ((key, Json.str s) :: p.1, p.2)) := by
  have hsk : strLit key ++ ':' :: (strLit s ++ ',' :: rest) =
      '"' :: (escList key.data ++ '"' :: (':' :: (strLit s ++ ',' :: rest))) := by
    simp [strLit]
  rw [hsk, parseFields.eq_def]
  simp only []
  rw [skipJsonWs_cons _ _ (by decide)]
  simp only [parseStrBody_escList]
  rw [skipJsonWs_cons _ _ (by decide)]
  simp only []
  rw [parseVal_strLit f s (',' :: rest)]
  simp only []
  rw [skipJsonWs_cons _ _ (by decide)]
  simp only []
  cases hpf : parseFields (f + 1) rest <;> simp [hpf]

/-- Helper: the member parser consumes a final rendered string-valued
member followed by the closing brace. -/
theorem parseFields_strField_last (f : Nat) (key s : String)
    (rest : List Char) :
    parseFields (f + 1 + 1) (strLit key ++ ':' :: (strLit s ++ '}' :: rest)) =
      some ([(key, Json.str s)], rest) := by
  have hsk : strLit key ++ ':' :: (strLit s ++ '}' :: rest) =
      '"' :: (escList key.data ++ '"' :: (':' :: (strLit s ++ '}' :: rest))) := by
    simp [strLit]
  rw [hsk, parseFields.eq_def]
  simp only []
  rw [skipJsonWs_cons _ _ (by decide)]
  simp only [parseStrBody_escList]
  rw [skipJsonWs_cons _ _ (by decide)]
  simp only []
  rw [parseVal_strLit f s ('}' :: rest)]
  simp only []
  rw [skipJsonWs_cons _ _ (by decide)]
  simp only []

/-- Helper: the member parser consumes one rendered integer-valued member
followed by a comma and recurses on the remaining members. -/
theorem parseFields_natField_comma (f : Nat) (key : String) (n : Nat)
    (rest : List Char) :
    parseFields (f + 1 + 1)
        (strLit key ++ ':' :: (natChars n ++ ',' :: rest)) =
      (parseFields (f + 1) rest).map
        (fun p => ((key, Json.num (n : Int)) :: p.1, p.2)) := by
  have hsk : strLit key ++ ':' :: (natChars n ++ ',' :: rest) =
      '"' :: (escList key.data ++ '"' :: (':' :: (natChars n ++ ',' :: rest))) := by
    simp [strLit]
  rw [hsk, parseFields.eq_def]
  simp only []
  rw [skipJsonWs_cons _ _ (by decide)]
  simp only [parseStrBody_escList]
  rw [skipJsonWs_cons _ _ (by decide)]
  simp only []
  rw [parseVal_natChars f n (',' :: rest) (by simp [noDigitHead])]
  simp only []
  rw [skipJsonWs_cons _ _ (by decide)]
  simp only []
  cases hpf : parseFields (f + 1) rest <;> simp [hpf]

/-- Helper: the member parser consumes a final rendered integer-valued
member followed by the closing brace. -/
theorem parseFields_natField_last (f : Nat) (key : String) (n : Nat)
    (rest : List Char) :
    parseFields (f + 1 + 1)
        (strLit key ++ ':' :: (natChars n ++ '}' :: rest)) =
      some ([(key, Json.num (n : Int))], rest) := by
  have hsk : strLit key ++ ':' :: (natChars n ++ '}' :: rest) =
      '"' :: (escList key.data ++ '"' :: (':' :: (natChars n ++ '}' :: rest))) := by
    simp [strLit]
  rw [hsk, parseFields.eq_def]
  simp only []
  rw [skipJsonWs_cons _ _ (by decide)]
  simp only [parseStrBody_escList]
  rw [skipJsonWs_cons _ _ (by decide)]
  simp only []
  rw [parseVal_natChars f n ('}' :: rest) (by simp [noDigitHead])]
  simp only []
  rw [skipJsonWs_cons _ _ (by decide)]
  simp only []

/-- Helper: on a rendered non-empty object whose first key is a string
literal, the value parser wraps the member parser. -/
theorem parseVal_obj_strKey (f : Nat) (key : String) (X : List Char) :
    parseVal (f + 1) ('{' :: (strLit key ++ X)) =
      (parseFields f (strLit key ++ X)).map
        (fun p => (Json.obj p.1, p.2)) := by
  have hsk : strLit key ++ X = '"' :: (escList key.data ++ '"' :: X) := by
    simp [strLit]
  rw [parseVal.eq_def]
  try simp only []
  rw [skipJsonWs_cons _ _ (by decide)]
  try simp only []
  rw [hsk, skipJsonWs_cons _ _ (by decide)]
  split
  · rename_i r2 heq
    exact absurd (List.cons.inj heq).1 (by decide)
  · rw [← hsk]
    cases hpf : parseFields f (strLit key ++ X) <;> simp [hpf]

/-- Helper: a serialized message is at least eight characters long (braces
plus the first key and its separators), so the parsing fuel budget of
jsonParse leaves room for the fixed member count. -/
theorem serializeMessage_length (m : Message) :
    8 ≤ ((serializeMessage m).data).length := by
  have hdata : (serializeMessage m).data = jsonToChars (messageToJson m) := rfl
  have h4 : (strLit "id").length = 4 := by decide
  rw [hdata]
  cases hr : m.responseToId <;>
    simp [serializeMessage, jsonToString, messageToJson, hr, jsonToChars,
      fieldsChars, List.length_append, h4] <;>
    omega

/-- Helper: with fuel at least nine, the value parser inverts the
serialization of any message, consuming the entire input and recovering
the serialized object. -/
theorem parseVal_serializeMessage (k : Nat) (m : Message) :
    parseVal (k + 9) ((serializeMessage m).data) =
      some (messageToJson m, []) := by
  have hdata : (serializeMessage m).data = jsonToChars (messageToJson m) := rfl
  have ht : ¬((m.timestamp : Int) < 0) := Int.not_lt.mpr (Int.natCast_nonneg _)
  rw [hdata]
  cases hr : m.responseToId with
  | some r =>
    have hjson : messageToJson m = Json.obj
        [("id", .str m.id), ("senderId", .str m.senderId),
         ("senderName", .str m.senderName), ("type", .str m.type.toWire),
         ("content", .str m.content), ("timestamp", .num (m.timestamp : Int)),
         ("responseToId", .str r)] := by
      simp [messageToJson, hr]
    have hchars : jsonToChars (messageToJson m) =
        '{' :: (strLit "id" ++ ':' :: (strLit m.id ++ ',' ::
          (strLit "senderId" ++ ':' :: (strLit m.senderId ++ ',' ::
          (strLit "senderName" ++ ':' :: (strLit m.senderName ++ ',' ::
          (strLit "type" ++ ':' :: (strLit m.type.toWire ++ ',' ::
          (strLit "content" ++ ':' :: (strLit m.content ++ ',' ::
          (strLit "timestamp" ++ ':' :: (natChars m.timestamp ++ ',' ::
          (strLit "responseToId" ++ ':' ::
            (strLit r ++ '}' :: [])))))))))))))) := by
      simp [messageToJson, hr, jsonToChars, fieldsChars, intChars, ht,
        List.append_assoc]
    rw [hchars]
    rw [parseVal_obj_strKey (k + 8) "id"]
    rw [parseFields_strField_comma (k + 6) "id" m.id]
    rw [parseFields_strField_comma (k + 5) "senderId" m.senderId]
    rw [parseFields_strField_comma (k + 4) "senderName" m.senderName]
    rw [parseFields_strField_comma (k + 3) "type" m.type.toWire]
    rw [parseFields_strField_comma (k + 2) "content" m.content]
    rw [parseFields_natField_comma (k + 1) "timestamp" m.timestamp]
    rw [parseFields_strField_last k "responseToId" r]
    simp [hjson]
  | none =>
    have hjson : messageToJson m = Json.obj
        [("id", .str m.id), ("senderId", .str m.senderId),
         ("senderName", .str m.senderName), ("type", .str m.type.toWire),
         ("content", .str m.content),
         ("timestamp", .num (m.timestamp : Int))] := by
      simp [messageToJson, hr]
    have hchars : jsonToChars (messageToJson m) =
        '{' :: (strLit "id" ++ ':' :: (strLit m.id ++ ',' ::
          (strLit "senderId" ++ ':' :: (strLit m.senderId ++ ',' ::
          (strLit "senderName" ++ ':' :: (strLit m.senderName ++ ',' ::
          (strLit "type" ++ ':' :: (strLit m.type.toWire ++ ',' ::
          (strLit "content" ++ ':' :: (strLit m.content ++ ',' ::
          (strLit "timestamp" ++ ':' ::
            (natChars m.timestamp ++ '}' :: [])))))))))))) := by
      simp [messageToJson, hr, jsonToChars, fieldsChars, intChars, ht,
        List.append_assoc]
    rw [hchars]
    rw [parseVal_obj_strKey (k + 8) "id"]
    rw [parseFields_strField_comma (k + 6) "id" m.id]
    rw [parseFields_strField_comma (k + 5) "senderId" m.senderId]
    rw [parseFields_strField_comma (k + 4) "senderName" m.senderName]
    rw [parseFields_strField_comma (k + 3) "type" m.type.toWire]
    rw [parseFields_strField_comma (k + 2) "content" m.content]
    rw [parseFields_natField_last (k + 1) "timestamp" m.timestamp]
    simp [hjson]

/-- Helper: the full JSON.parse model inverts serializeMessage. -/
theorem jsonParse_serializeMessage (m : Message) :
    jsonParse (serializeMessage m) = some (messageToJson m) := by
  obtain ⟨k, hk⟩ : ∃ k, ((serializeMessage m).data).length + 1 = k + 9 :=
    ⟨((serializeMessage m).data).length - 8, by
      have := serializeMessage_length m
      omega⟩
  rw [jsonParse, hk, parseVal_serializeMessage]
  rfl

/-- C3.  Codec round-trip: deserializing a serialized message recovers the
serialized object non-null, and that object carries every field of the
message exactly — id, senderId, senderName, type, content, timestamp, and
responseToId (absent from the object exactly when absent from the
message). -/
theorem c3_codec_roundtrip (m : Message) :
    deserializeMessage (serializeMessage m) = some (messageToJson m) ∧
    (messageToJson m).getField "id" = some (.str m.id) ∧
    (messageToJson m).getField "senderId" = some (.str m.senderId) ∧
    (messageToJson m).getField "senderName" = some (.str m.senderName) ∧
    (messageToJson m).getField "type" = some (.str m.type.toWire) ∧
    (messageToJson m).getField "content" = some (.str m.content) ∧
    (messageToJson m).getField "timestamp" =
      some (.num (m.timestamp : Int)) ∧
    (messageToJson m).getField "responseToId" =
      m.responseToId.map Json.str := by
  refine ⟨jsonParse_serializeMessage m, ?_, ?_, ?_, ?_, ?_, ?_, ?_⟩ <;>
    cases hr : m.responseToId <;>
    simp [messageToJson, Json.getField, hr]

/-- C4 counterexample: deserializeMessage performs no envelope validation,
so input that parses as JSON but does not conform to the Message envelope
is returned non-null: the empty object parses to a value with no id
field, not to null. -/
theorem c4_counterexample :
    deserializeMessage "{}" = some (Json.obj []) ∧
    (Json.obj []).getField "id" = none ∧
    deserializeMessage "{}" ≠ none := by
  refine ⟨rfl, rfl, ?_⟩
  rw [show deserializeMessage "{}" = some (Json.obj []) from rfl]
  simp

/-- C4 as amended: on input that is not valid JSON — including "not json"
and the empty string — deserializeMessage returns null and never throws
(the embedding is a total function); input that parses as JSON is
returned as-is without envelope validation, so non-conforming JSON such
as the empty object or a bare number yields a non-null value. -/
theorem c4_codec_robustness :
    deserializeMessage "" = none ∧
    deserializeMessage "not json" = none ∧
    deserializeMessage "{}" = some (Json.obj []) ∧
    deserializeMessage "42" = some (Json.num 42) :=
  ⟨rfl, rfl, rfl, rfl⟩
